import Mathlib

/-!
Verification of `src/image_manipulation/img_manip.py`.

A shallow embedding of the artifact-synthesis engine of this repository.
Python's global `numpy.random` generator is modelled as explicit state
(`RNG`) threaded through a state/exception monad `PyM`; `np.random.seed`
overwrites that state.  Machine floats are modelled over `ℚ`; purely
numeric external collaborators (scipy's PCHIP core and Euclidean distance
transform, cv2's perspective warp and Gaussian blur, PIL's colour-space
conversions, the `deconvolution` package) are fields of a `Numerics`
parameter, while their documented *shape* behaviour (argument validation,
error raising, clamping) is embedded directly.  Exceptions are modelled
with `Except`.
-/

/-- Python exception classes that the embedded code can raise.
`invalidInputError` never arises from any embedded definition: the
repository defines no such exception class; the constructor exists only so
that statements about it can be written down. -/
inductive PyErr where
  | typeError
  | valueError
  | indexError
  | invalidInputError
  deriving DecidableEq, Repr

/-- The global `numpy.random` generator state (legacy `RandomState`),
modelled as a single natural-number word. -/
structure RNG where
  st : Nat
  deriving DecidableEq, Repr

/-- One step of the modelled generator: a linear-congruential update of the
state; the 15 high bits of the new state are the raw output word. -/
def rngStep (g : RNG) : Nat × RNG :=
  let s := (g.st * 1103515245 + 12345) % 2147483648
  ((s / 65536) % 32768, ⟨s⟩)

/-- The generator state installed by `np.random.seed(s)` for a valid
integer seed `s`. -/
def rngOfSeed (s : ℤ) : RNG := ⟨s.toNat % 2147483648⟩

/-- The Python-fragment monad: global RNG state plus exceptions. -/
def PyM (α : Type) : Type := RNG → Except PyErr (α × RNG)

instance : Monad PyM where
  pure a := fun g => .ok (a, g)
  bind m k := fun g =>
    match m g with
    | .ok (a, g1) => k a g1
    | .error e => .error e

/-- `raise e`. -/
def pyThrow (e : PyErr) : PyM α := fun _ => .error e

/-- Run a pure `Except` computation (no RNG use) inside `PyM`. -/
def pyLift (e : Except PyErr α) : PyM α := fun g =>
  match e with
  | .ok a => .ok (a, g)
  | .error er => .error er

/-- The observable outcome of running a fragment from generator state `g`:
its return value or exception (the final generator state is dropped). -/
def pyOut (m : PyM α) (g : RNG) : Except PyErr α :=
  (m g).map Prod.fst

/-- `True` when running the fragment from `g` raises an exception. -/
def pyFails (m : PyM α) (g : RNG) : Bool :=
  match m g with
  | .ok _ => false
  | .error _ => true

/-- The exception class of an outcome, if any (lets exception facts be
decided even when the success type carries functions). -/
def errOf : Except PyErr α → Option PyErr
  | .error e => some e
  | .ok _ => none

/-- `np.random.seed(seed)` — `seed=None` draws the new state from OS
entropy, modelled by leaving the ambient (unknown) state in place; an
integer seed must lie in `[0, 2^32 - 1]` or `ValueError` is raised, and
installs a state depending only on the seed. -/
def npRandomSeed (seed : Option ℤ) : PyM Unit := fun g =>
  match seed with
  | none => .ok ((), g)
  | some s =>
      if 0 ≤ s ∧ s < 4294967296 then .ok ((), rngOfSeed s)
      else .error .valueError

/-- `np.random.randint(lo, hi)` — one integer uniform on `[lo, hi)`;
raises `ValueError` when `lo ≥ hi`. -/
def npRandInt (lo hi : ℤ) : PyM ℤ := fun g =>
  if lo < hi then
    let (v, g1) := rngStep g
    .ok (lo + (v : ℤ) % (hi - lo), g1)
  else .error .valueError

/-- `np.random.randint(lo, hi, size=n)` — `n` draws in C (row-major)
order; the bounds are validated even when `n = 0`. -/
def npRandInts (lo hi : ℤ) : (n : ℕ) → PyM (List ℤ)
  | 0 => fun g => if lo < hi then .ok ([], g) else .error .valueError
  | n + 1 => do
      let v ← npRandInt lo hi
      let rest ← npRandInts lo hi n
      pure (v :: rest)

/-- `np.random.uniform(lo, hi)` — one draw; no bound validation
(numpy raises nothing when `lo ≥ hi`). -/
def npUniform (lo hi : ℚ) : PyM ℚ := fun g =>
  let (v, g1) := rngStep g
  .ok (lo + ((v : ℚ) / 32768) * (hi - lo), g1)

/-- `np.random.uniform(lo, hi, size=n)`. -/
def npUniforms (lo hi : ℚ) : (n : ℕ) → PyM (List ℚ)
  | 0 => pure []
  | n + 1 => do
      let v ← npUniform lo hi
      let rest ← npUniforms lo hi n
      pure (v :: rest)

/-- `np.random.choice((-1, 1))`. -/
def npChoicePM1 : PyM ℤ := fun g =>
  let (v, g1) := rngStep g
  .ok (if v % 2 = 0 then -1 else 1, g1)

/-- Python `int(x)` / numpy `astype(int)`: truncation toward zero. -/
def pyInt (q : ℚ) : ℤ := q.num / (q.den : ℤ)

/-- `np.round` to the nearest integer, halves to even (banker's
rounding). -/
def npRound (q : ℚ) : ℤ :=
  let f := ⌊q⌋
  let r := q - (f : ℚ)
  if r < 1/2 then f
  else if 1/2 < r then f + 1
  else if 2 ∣ f then f else f + 1

/-- `np.ceil` as an integer. -/
def npCeil (q : ℚ) : ℤ := ⌈q⌉

/-- Clamp a rational to `[0, 255]` (8-bit channel saturation). -/
def clamp255 (q : ℚ) : ℚ := max 0 (min 255 q)

/-- An `(x, y)` point. -/
abbrev Pt : Type := ℚ × ℚ

/-- A rational-valued raster addressed `(row, col)`. -/
abbrev GridQ : Type := ℕ → ℕ → ℚ

/-- One RGB pixel, channels over `ℚ`. -/
abbrev Pix : Type := ℚ × ℚ × ℚ

/-- A PIL image: width, height, and the pixel raster addressed
`(row, col)`. -/
structure Img where
  w : ℕ
  h : ℕ
  pix : ℕ → ℕ → Pix

/-- Validity of a single numpy index `i` on an axis of length `n`:
`-n ≤ i < n` (negative indices wrap). -/
def npIdxOk (n : ℕ) (i : ℤ) : Bool := -(n : ℤ) ≤ i && i < n

/-- Resolve a valid numpy index to a non-negative offset. -/
def npIdxWrap (n : ℕ) (i : ℤ) : ℕ := (if i < 0 then i + n else i).toNat

/-- `mask[ys, xs] = 0` on an `h × w` array of ones: returns the list of
`(row, col)` cells set to zero, or `IndexError` when any index is out of
bounds. -/
def maskZeros (h w : ℕ) (idx : List (ℤ × ℤ)) : Except PyErr (List (ℕ × ℕ)) :=
  if idx.all (fun p => npIdxOk w p.1 && npIdxOk h p.2) then
    .ok (idx.map (fun p => (npIdxWrap h p.2, npIdxWrap w p.1)))
  else .error .indexError

/-- A Python value that may be a `bool` or an `int` (the `startEdge` /
`endEdge` arguments of `rand_spline`).  Python compares `bool`s as the
integers 0 and 1. -/
inductive PyVal where
  | bool (b : Bool)
  | int (n : ℤ)
  deriving DecidableEq, Repr

/-- The numeric value Python uses in comparisons (`True == 1`,
`False == 0`). -/
def PyVal.toZ : PyVal → ℤ
  | .bool b => if b then 1 else 0
  | .int n => n

/-- Python `v == True` (numeric equality with 1). -/
def PyVal.eqTrue (v : PyVal) : Bool := v.toZ = 1

/-- Python `v in range(0, 4)` (membership by numeric equality, so `True`
and `False` are members). -/
def PyVal.inR04 (v : PyVal) : Bool := 0 ≤ v.toZ && v.toZ < 4

/-- Python `v in range(-4, 0)`. -/
def PyVal.inRN4 (v : PyVal) : Bool := -4 ≤ v.toZ && v.toZ < 0

/-- Python `type(v) != bool`. -/
def PyVal.isInt : PyVal → Bool
  | .bool _ => false
  | .int _ => true

/-- The purely numeric external collaborators (scipy / cv2 / PIL /
deconvolution cores), per the spec's external-interfaces section: each is
an arbitrary deterministic function; argument validation and clamping
around them are embedded directly. -/
structure Numerics where
  /-- scipy PCHIP: the interpolated unit-spaced samples through ≥ 2
  distinct handle points (validation is outside this core). -/
  pchipCore : List Pt → List Pt
  /-- scipy `distance_transform_edt`: distance raster for an `h × w`
  array given the list of its zero cells. -/
  edt : ℕ → ℕ → List (ℕ × ℕ) → GridQ
  /-- cv2 `getPerspectiveTransform` + `warpPerspective` over the
  symmetric-padded sample array (pad amount, destination and source
  quadrilaterals, output size). -/
  warpPad : (ℕ → ℕ → Pix) → ℕ → List Pt → List Pt → (ℕ × ℕ) → (ℕ → ℕ → Pix)
  /-- cv2 `GaussianBlur` with an odd square kernel. -/
  gaussBlur : ℕ → (ℕ → ℕ → Pix) → (ℕ → ℕ → Pix)
  /-- scipy `multivariate_normal(cent, cov).pdf`: covariance given as
  (diag₀, diag₁, cross). -/
  gaussPdf : Pt → (ℚ × ℚ × ℚ) → Pt → ℚ
  /-- PIL RGB→HSV pixel conversion. -/
  rgb2hsv : Pix → Pix
  /-- PIL HSV→RGB pixel conversion. -/
  hsv2rgb : Pix → Pix
  /-- deconvolution `out_scalars` (after `_array_positive`): the three
  per-pixel density maps. -/
  outScalars : Img → ℕ → ℕ → ℚ × ℚ × ℚ
  /-- deconvolution `get_basis`: the three basis colour vectors. -/
  getBasis : Pix × Pix × Pix
  /-- float `**`. -/
  qpow : ℚ → ℚ → ℚ
  /-- float `sqrt`. -/
  qsqrt : ℚ → ℚ

/-- numpy `pts[i, c] = v` on an `n × 2` float array (`c` = 0 for x, 1 for
y); raises `IndexError` when row `i` does not exist. -/
def setCoord (pts : List Pt) (i : ℕ) (c : ℤ) (v : ℚ) : Except PyErr (List Pt) :=
  if h : i < pts.length then
    .ok (pts.set i
      (if c = 0 then (v, (pts.get ⟨i, h⟩).2) else ((pts.get ⟨i, h⟩).1, v)))
  else .error .indexError

/-- `inPts[i, edgeNum % 2] = (edgeNum // 2) * (dim[edgeNum % 2] - 1)` —
pin handle point `i` onto edge `edgeNum` (0 = left, 1 = top, 2 = right,
3 = bottom). -/
def edgePin (dim : ℕ × ℕ) (edgeNum : ℤ) (i : ℕ) (pts : List Pt) :
    Except PyErr (List Pt) :=
  let lr := edgeNum % 2
  let lt := edgeNum / 2
  let dcomp : ℕ := if lr = 0 then dim.1 else dim.2
  setCoord pts i lr ((lt : ℚ) * ((dcomp : ℚ) - 1))

/-- The random-handle-point block of `rand_spline` (img_manip.py
lines 44–71): `nPts` random points in `[0, w-2] × [0, h-2]`, then the
literal start-edge and end-edge pinning logic, including Python's
`bool`-as-`int` comparisons. -/
def rand_spline_handles (dim : ℕ × ℕ) (nPts : ℕ) (startEdge endEdge : PyVal) :
    PyM (List Pt) := do
  let xs ← npRandInts 0 ((dim.1 : ℤ) - 1) nPts
  let ys ← npRandInts 0 ((dim.2 : ℤ) - 1) nPts
  let pts0 : List Pt := (xs.zip ys).map (fun p => ((p.1 : ℚ), (p.2 : ℚ)))
  let startEdgeFlag := startEdge.eqTrue || startEdge.inR04
  let st ←
    if startEdgeFlag then do
      let e ← if startEdge.inR04 && startEdge.isInt
              then pure startEdge.toZ else npRandInt 0 4
      let p ← pyLift (edgePin dim e 0 pts0)
      pure (p, some e)
    else pure (pts0, (none : Option ℤ))
  let pts1 := st.1
  if endEdge.eqTrue || endEdge.inR04 || (endEdge.inRN4 && startEdgeFlag) then do
    let e ← if endEdge.inR04 then pure endEdge.toZ
            else if endEdge.inRN4 && startEdgeFlag then
              pure ((endEdge.toZ + st.2.getD 0 + 4) % 4)
            else npRandInt 0 4
    pyLift (edgePin dim e (nPts - 1) pts1)
  else pure pts1

/-- Squared Euclidean distance between two points. -/
def sqDistQ (p q : Pt) : ℚ := (p.1 - q.1) ^ 2 + (p.2 - q.2) ^ 2

/-- Squared distances between consecutive points. -/
def consecSq : List Pt → List ℚ
  | [] => []
  | [_] => []
  | a :: b :: t => sqDistQ a b :: consecSq (b :: t)

/-- scipy `pchip_interpolate` on the cumulative-arc-length
parametrisation (img_manip.py lines 78–81): the library raises
`ValueError` when the parametrisation has fewer than 2 breakpoints or is
not strictly increasing (consecutive duplicate handle points); otherwise
the numeric interpolation core produces the unit-spaced samples. -/
def pchip_arclen (N : Numerics) (pts : List Pt) : Except PyErr (List Pt) :=
  if pts.length < 2 then .error .valueError
  else if (consecSq pts).any (fun d => d = 0) then .error .valueError
  else .ok (N.pchipCore pts)

/-- `rand_spline` (img_manip.py lines 15–82). -/
def rand_spline (N : Numerics) (dim : ℕ × ℕ) (inPts : Option (List Pt))
    (nPts : ℕ) (seed : Option ℤ) (startEdge endEdge : PyVal) :
    PyM (List Pt) := do
  npRandomSeed seed
  let pts ← match inPts with
    | none => rand_spline_handles dim nPts startEdge endEdge
    | some ps => pure ps
  pyLift (pchip_arclen N pts)

/-- `l[i]` with a runtime index: numpy raises `IndexError` when the
index does not exist. -/
def pyGet (l : List α) (i : ℕ) : Except PyErr α :=
  match l.get? i with
  | some a => .ok a
  | none => .error .indexError

/-- cv2 reflect-101 border handling (the `cv2.blur` default). -/
def reflect101 (n : ℕ) (i : ℤ) : ℕ :=
  (if i < 0 then -i else if (n : ℤ) ≤ i then 2 * ((n : ℤ) - 1) - i else i).toNat

/-- cv2 `blur(·, (5, 5))`: normalized 5×5 box filter with reflect-101
borders on an `h × w` raster. -/
def boxBlur5 (h w : ℕ) (g : GridQ) : GridQ := fun r c =>
  (((List.range 5).map (fun dr =>
      (((List.range 5).map (fun dc =>
          g (reflect101 h ((r : ℤ) + dr - 2)) (reflect101 w ((c : ℤ) + dc - 2)))).sum))).sum) / 25

/-- `np.interp(v, [x0, x1], [y0, y1])`: linear interpolation, clamped to
the end values outside the breakpoints. -/
def npInterp2 (v x0 x1 y0 y1 : ℚ) : ℚ :=
  if v ≤ x0 then y0
  else if x1 ≤ v then y1
  else y0 + (v - x0) * (y1 - y0) / (x1 - x0)

/-- `astype(np.uint8)` on a float: C truncation, wrapped to 8 bits. -/
def u8 (q : ℚ) : ℚ := ((pyInt q % 256 : ℤ) : ℚ)

/-- Column-wise `np.amin` over a nonempty list (callers guard emptiness,
where numpy raises). -/
def colMin : List ℚ → ℚ
  | [] => 0
  | x :: t => t.foldl min x

/-- Column-wise `np.amax` over a nonempty list. -/
def colMax : List ℚ → ℚ
  | [] => 0
  | x :: t => t.foldl max x

/-- `np.amin` over an `h × w` raster. -/
def gridMin (h w : ℕ) (g : GridQ) : ℚ :=
  colMin ((List.range h).flatMap (fun r => (List.range w).map (fun c => g r c)))

/-- `np.amax` over an `h × w` raster. -/
def gridMax (h w : ℕ) (g : GridQ) : ℚ :=
  colMax ((List.range h).flatMap (fun r => (List.range w).map (fun c => g r c)))

/-- Monadic map over a list (a Python `for` loop accumulating results). -/
def mapPyM (f : α → PyM β) : List α → PyM (List β)
  | [] => pure []
  | a :: t => do
      let b ← f a
      let rest ← mapPyM f t
      pure (b :: rest)

/-- `np.pi` (the IEEE-754 double value, as an exact rational). -/
def npPi : ℚ := 884279719003555 / 281474976710656

/-- The mean RGB colour of an image (`np.mean(np.array(inputIm), axis=(0,1))`). -/
def imageMeanColor (img : Img) : Pix :=
  let cells := (List.range img.h).flatMap (fun r => (List.range img.w).map (fun c => img.pix r c))
  let n : ℚ := ((img.h * img.w : ℕ) : ℚ)
  ((cells.map (fun p => p.1)).sum / n,
   (cells.map (fun p => p.2.1)).sum / n,
   (cells.map (fun p => p.2.2)).sum / n)

/-- `PIL.Image.composite(over, base, mask)` at one pixel, with 8-bit
alpha `a`: each channel moves from `base` toward `over` by `a/255`. -/
def pilComposite (over base : Pix) (a : ℚ) : Pix :=
  (base.1 + a * (over.1 - base.1) / 255,
   base.2.1 + a * (over.2.1 - base.2.1) / 255,
   base.2.2 + a * (over.2.2 - base.2.2) / 255)

/-- The thresholded marker region (img_manip.py line 210): the pixels
whose distance to the spline is at most `width / 2`. -/
def markerReg (bwDist : GridQ) (width : ℚ) : ℕ → ℕ → Bool := fun r c =>
  decide (bwDist r c ≤ width / 2)

/-- `add_marker` (img_manip.py lines 160–221). -/
def add_marker (N : Numerics) (img : Img) (seed : Option ℤ) (nPts : ℕ)
    (sampSpl inPts : Option (List Pt)) (width alpha : ℚ) (rgbVal : Option Pix)
    (rgbRange : (ℤ × ℤ) × (ℤ × ℤ) × (ℤ × ℤ)) : PyM Img := do
  npRandomSeed seed
  let rgb ← match rgbVal with
    | some v => pure v
    | none => do
        let r ← npRandInt rgbRange.1.1 rgbRange.1.2
        let gc ← npRandInt rgbRange.2.1.1 rgbRange.2.1.2
        let b ← npRandInt rgbRange.2.2.1 rgbRange.2.2.2
        pure (((r : ℚ), (gc : ℚ), (b : ℚ)) : Pix)
  let dim := (img.w, img.h)
  let spl ← match sampSpl with
    | some s => pure s
    | none => match inPts with
      | none => rand_spline N dim none nPts seed (.bool true) (.bool true)
      | some ps => rand_spline N dim (some ps) nPts seed (.bool true) (.bool true)
  let zeros ← pyLift (maskZeros img.h img.w
    (spl.map (fun p => (npRound p.1, npRound p.2))))
  let bwDist := N.edt img.h img.w zeros
  let aV : ℚ := ((pyInt (alpha * 255) : ℤ) : ℚ)
  pure ⟨img.w, img.h, fun r c =>
    pilComposite rgb (img.pix r c) (if markerReg bwDist width r c then aV else 0)⟩

/-- The non-recursion parameters of `add_fold` that are forwarded
unchanged by the layer recursion. -/
structure FoldArgs where
  scaleXY : ℚ × ℚ
  width : ℚ
  sampShiftXY : Option (ℚ × ℚ)
  randEdge : Bool
  nPts : ℕ
  endEdge : PyVal

/-- One layer of `add_fold` (img_manip.py lines 269–345): spline choice,
sample-array default, random shift, bounding boxes with random corner
perturbation, perspective warp, distance mask, and the multiplicative
composite.  Returns the composite image together with the sample array
and spline that the recursive call reuses. -/
def fold_layer (N : Numerics) (img : Img) (sampArrO : Option (ℕ → ℕ → Pix))
    (sampSplO inPts : Option (List Pt)) (seed : Option ℤ) (a : FoldArgs) :
    PyM (Img × (ℕ → ℕ → Pix) × List Pt) := do
  let im_arr := img.pix
  let dim := (img.w, img.h)
  let spl ← match sampSplO with
    | some s => pure s
    | none => match inPts with
      | none => rand_spline N dim none a.nPts seed (.bool true) a.endEdge
      | some ps => rand_spline N dim (some ps) a.nPts seed (.bool true) (.bool true)
  let sampArr := sampArrO.getD im_arr
  let shiftXY ← match a.sampShiftXY with
    | none => do
        let sx ← npRandInt (-(pyInt ((dim.1 : ℚ) / 2))) (pyInt ((dim.1 : ℚ) / 2))
        let sy ← npRandInt (-(pyInt ((dim.1 : ℚ) / 2))) (pyInt ((dim.1 : ℚ) / 2))
        pure (((sx : ℚ), (sy : ℚ)) : ℚ × ℚ)
    | some s => pure s
  let padAmt := max dim.1 dim.2
  let kernel : ℤ := ⌊a.width / 40⌋ * 2 + 1
  if spl.isEmpty then pyThrow .valueError
  else do
    let minX := colMin (spl.map Prod.fst)
    let maxX := colMax (spl.map Prod.fst)
    let minY := colMin (spl.map Prod.snd)
    let maxY := colMax (spl.map Prod.snd)
    let rsLoX := (minX + maxX) / 2 - ((maxX - minX) / 2) * a.scaleXY.1
    let rsHiX := (minX + maxX) / 2 + ((maxX - minX) / 2) * a.scaleXY.1
    let rsLoY := (minY + maxY) / 2 - ((maxY - minY) / 2) * a.scaleXY.2
    let rsHiY := (minY + maxY) / 2 + ((maxY - minY) / 2) * a.scaleXY.2
    let randShiftX ← npRandInts (-(pyInt ((rsHiX - rsLoX) / 4))) (pyInt ((rsHiX - rsLoX) / 4)) 4
    let randShiftY ← npRandInts (-(pyInt ((rsHiY - rsLoY) / 4))) (pyInt ((rsHiY - rsLoY) / 4)) 4
    let bbPt : ℕ → Pt := fun di =>
      ((if di % 2 = 0 then minX else maxX), (if di / 2 = 0 then minY else maxY))
    let outPt : ℕ → Pt := fun di =>
      ((if di % 2 = 0 then rsLoX else rsHiX) + (padAmt : ℚ) + shiftXY.1
          + ((randShiftX.getD di 0 : ℤ) : ℚ),
       (if di / 2 = 0 then rsLoY else rsHiY) + (padAmt : ℚ) + shiftXY.2
          + ((randShiftY.getD di 0 : ℤ) : ℚ))
    let warp := N.warpPad sampArr padAmt [outPt 0, outPt 1, outPt 2, outPt 3]
      [bbPt 0, bbPt 1, bbPt 2, bbPt 3] dim
    let zeros ← pyLift (maskZeros img.h img.w (spl.map (fun p => (pyInt p.1, pyInt p.2))))
    let bwDist0 := N.edt img.h img.w zeros
    let bwDist ← if a.randEdge then do
        let draws ← npRandInts (-(pyInt (a.width / 4))) (pyInt (a.width / 4)) (img.h * img.w)
        pure (boxBlur5 img.h img.w (fun r c => bwDist0 r c + ((draws.getD (r * img.w + c) 0 : ℤ) : ℚ)))
      else pure bwDist0
    let unit0 : ℕ → ℕ → Pix := fun r c =>
      if bwDist r c ≤ a.width / 2 then
        ((warp r c).1 / 255, (warp r c).2.1 / 255, (warp r c).2.2 / 255)
      else (1, 1, 1)
    let unit := N.gaussBlur kernel.toNat unit0
    let comp : Img := ⟨img.w, img.h, fun r c =>
      (u8 ((unit r c).1 * (im_arr r c).1),
       u8 ((unit r c).2.1 * (im_arr r c).2.1),
       u8 ((unit r c).2.2 * (im_arr r c).2.2))⟩
    pure (comp, sampArr, spl)

/-- The recursion of `add_fold`, structurally on the layer count
(`fuel = nLayers.toNat`, which is faithful because every `nLayers < 1`
behaves like 0 and each recursive call decrements `nLayers` by one).
Each call re-seeds first (line 265); `nLayers < 1` returns the input
unchanged (lines 266–267); a further layer re-enters with
`random_seed + 1` (lines 347–350), which is a `TypeError` when
`random_seed` is `None`. -/
def addFoldGo (N : Numerics) : ℕ → Img → Option (ℕ → ℕ → Pix) →
    Option (List Pt) → Option (List Pt) → Option ℤ → FoldArgs → PyM Img
  | 0, img, _, _, _, seed, _ => do
      npRandomSeed seed
      pure img
  | Nat.succ k, img, sampArr, sampSpl, inPts, seed, a => do
      npRandomSeed seed
      let st ← fold_layer N img sampArr sampSpl inPts seed a
      match k with
      | 0 => pure st.1
      | Nat.succ _ =>
          match seed with
          | none => pyThrow .typeError
          | some s => addFoldGo N k st.1 (some st.2.1) (some st.2.2) inPts (some (s + 1)) a

/-- `add_fold` (img_manip.py lines 224–351). -/
def add_fold (N : Numerics) (img : Img) (sampArr : Option (ℕ → ℕ → Pix))
    (sampSpl inPts : Option (List Pt)) (seed : Option ℤ) (a : FoldArgs)
    (nLayers : ℤ) : PyM Img :=
  addFoldGo N nLayers.toNat img sampArr sampSpl inPts seed a

/-- The spline selection of `add_sectioning` (img_manip.py lines
395–399), embedded literally: when `inPts is None` the call passes
`inPts=inPts` (i.e. `None`) and the remaining `rand_spline` defaults
(`nPts=5`, `endEdge=True`), and when `inPts` is supplied the call passes
`nPts` and `endEdge` but *not* `inPts`. -/
def sectioning_spline (N : Numerics) (dim : ℕ × ℕ)
    (sampSpl inPts : Option (List Pt)) (nPts : ℕ) (endEdge : PyVal)
    (seed : Option ℤ) : PyM (List Pt) :=
  match sampSpl with
  | some s => pure s
  | none =>
      match inPts with
      | none => rand_spline N dim none 5 seed (.bool true) (.bool true)
      | some _ => rand_spline N dim none nPts seed (.bool true) endEdge

/-- The distance raster of `add_sectioning` (img_manip.py lines
403–406): the plain distance transform, or — when `randEdge` — the 5×5
box blur of the distance transform plus per-pixel integer jitter drawn
uniformly from `[-int(width/2), int(width/2))`. -/
def sectioning_bwdist (width : ℚ) (randEdge : Bool) (h w : ℕ)
    (bwDist0 : GridQ) : PyM GridQ :=
  if randEdge then do
    let draws ← npRandInts (-(pyInt (width / 2))) (pyInt (width / 2)) (h * w)
    pure (boxBlur5 h w (fun r c => bwDist0 r c + ((draws.getD (r * w + c) 0 : ℤ) : ℚ)))
  else pure bwDist0

/-- The thresholded sectioning region (img_manip.py line 409). -/
def sectioning_reg (bwDist : GridQ) (width : ℚ) : ℕ → ℕ → Bool := fun r c =>
  decide (bwDist r c ≤ width / 2)

/-- The region-construction prefix of `add_sectioning` (img_manip.py
lines 391–409): seeding, spline selection, mask, distance transform and
optional edge jitter; returns the boolean region and the distance
raster it was thresholded from. -/
def add_sectioning_region (N : Numerics) (img : Img) (width : ℚ)
    (seed : Option ℤ) (randEdge : Bool) (sampSpl inPts : Option (List Pt))
    (nPts : ℕ) (endEdge : PyVal) : PyM ((ℕ → ℕ → Bool) × GridQ) := do
  npRandomSeed seed
  let spl ← sectioning_spline N (img.w, img.h) sampSpl inPts nPts endEdge seed
  let zeros ← pyLift (maskZeros img.h img.w (spl.map (fun p => (pyInt p.1, pyInt p.2))))
  let bwDist0 := N.edt img.h img.w zeros
  let bwDist ← sectioning_bwdist width randEdge img.h img.w bwDist0
  pure (sectioning_reg bwDist width, bwDist)

/-- `add_sectioning` (img_manip.py lines 353–428). -/
def add_sectioning (N : Numerics) (img : Img) (width : ℚ) (seed : Option ℤ)
    (scaleMin scaleMax : ℚ) (randEdge : Bool) (sampSpl inPts : Option (List Pt))
    (nPts : ℕ) (endEdge : PyVal) : PyM Img := do
  let st ← add_sectioning_region N img width seed randEdge sampSpl inPts nPts endEdge
  let halfScale := (scaleMin + scaleMax) / 2
  let sRMin ← npUniform scaleMin ((halfScale + scaleMin) / 2)
  let sRMax ← npUniform ((halfScale + scaleMax) / 2) scaleMax
  let nDist : GridQ := fun r c =>
    if st.1 r c then npInterp2 (st.2 r c / (width / 2)) 0 1 sRMin sRMax else 1
  pure ⟨img.w, img.h, fun r c =>
    let p := N.rgb2hsv (img.pix r c)
    N.hsv2rgb (p.1,
      ((pyInt (min 255 (p.2.1 * nDist r c)) : ℤ) : ℚ),
      ((pyInt (min 255 (p.2.2 / ((nDist r c + 1) / 2))) : ℤ) : ℚ))⟩

/-- `rand_gauss` (img_manip.py lines 84–158): random centres (unless
supplied), then per Gaussian a scaled maximum covariance, two diagonal
entries, and a cross-covariance draw (`uniform(-m*s, m*s)` is written as
`m * uniform(-s, s)`, which is the identical value under the generator
model); the summed field is evaluated through the external pdf. -/
def rand_gauss (N : Numerics) (dim : ℕ × ℕ) (nNorms : ℕ) (maxCov : ℚ)
    (seed : Option ℤ) (centXY : Option (List Pt)) (zeroToOne : Bool)
    (minMaxX minMaxY : Option (ℚ × ℚ))
    (minCovScale minDiagCovScale maxCrCovScale : ℚ) : PyM GridQ := do
  npRandomSeed seed
  let mmX := minMaxX.getD (if zeroToOne then (0, 1) else (0, (dim.1 : ℚ)))
  let mmY := minMaxY.getD (if zeroToOne then (0, 1) else (0, (dim.2 : ℚ)))
  let cents ← match centXY with
    | none => do
        let xs ← npUniforms mmX.1 mmX.2 nNorms
        let ys ← npUniforms mmY.1 mmY.2 nNorms
        pure (xs.zip ys)
    | some c => pure c
  let gs ← mapPyM (fun cent => do
      let cMax ← npUniform (maxCov * minCovScale) maxCov
      let d0 ← npUniform (cMax * minDiagCovScale) cMax
      let d1 ← npUniform (cMax * minDiagCovScale) cMax
      let uc ← npUniform (-maxCrCovScale) maxCrCovScale
      pure (cent, ((d0, d1, N.qsqrt (d0 * d1) * uc) : ℚ × ℚ × ℚ), cMax)) cents
  let posOf : ℕ → ℕ → Pt := fun r c =>
    if zeroToOne then ((c : ℚ) / ((dim.1 : ℚ) - 1), (r : ℚ) / ((dim.2 : ℚ) - 1))
    else ((c : ℚ), (r : ℚ))
  pure (fun r c =>
    ((gs.map (fun t => N.gaussPdf t.1 t.2.1 (posOf r c) * (t.2.2 * 2 * npPi))).sum) * maxCov)

/-- `add_bubbles` (img_manip.py lines 430–475). -/
def add_bubbles (N : Numerics) (img : Img) (seed : Option ℤ) (nBubbles : ℕ)
    (maxWidth alpha edgeWidth : ℚ) (edgeColorMult : Pix) (rgbVal : Pix) :
    PyM Img := do
  npRandomSeed seed
  let sumMap ← rand_gauss N (img.w, img.h) nBubbles maxWidth seed none false
    none none (1/10) (1/4) (7/10)
  let bwReg : ℕ → ℕ → Bool := fun r c => decide (1 ≤ sumMap r c)
  let zeros := (List.range img.h).flatMap (fun r =>
    ((List.range img.w).filter (fun c => ¬ bwReg r c)).map (fun c => (r, c)))
  let bwDist := N.edt img.h img.w zeros
  let mc := imageMeanColor img
  let edgeArea : ℕ → ℕ → Bool := fun r c => (decide (bwDist r c ≤ edgeWidth)) && bwReg r c
  let colorAt : ℕ → ℕ → Pix := fun r c =>
    if edgeArea r c then
      (u8 (mc.1 * edgeColorMult.1), u8 (mc.2.1 * edgeColorMult.2.1),
       u8 (mc.2.2 * edgeColorMult.2.2))
    else rgbVal
  pure ⟨img.w, img.h, fun r c =>
    pilComposite (colorAt r c) (img.pix r c)
      (if bwReg r c then ((pyInt (alpha * 255) : ℤ) : ℚ) else 0)⟩

/-- `add_illumination` (img_manip.py lines 477–530). -/
def add_illumination (N : Numerics) (img : Img) (seed : Option ℤ)
    (maxCov : ℚ) (nNorms : ℕ) (scaleMin scaleMax : ℚ)
    (minCovScale minDiagCovScale maxCrCovScale : ℚ) : PyM Img := do
  npRandomSeed seed
  let sumMap ← rand_gauss N (img.w, img.h) nNorms maxCov seed none true
    (some (-(1/2), 3/2)) (some (-(1/2), 3/2)) minCovScale minDiagCovScale maxCrCovScale
  let lo := gridMin img.h img.w sumMap
  let nSum0 : GridQ := fun r c => sumMap r c - lo
  let divFac := gridMax img.h img.w nSum0
  let sRMin ← npUniform scaleMin ((1 + scaleMin) / 2)
  let sRMax ← npUniform ((1 + scaleMax) / 2) scaleMax
  let nSum : GridQ := fun r c => npInterp2 (nSum0 r c / divFac) 0 1 sRMin sRMax
  pure ⟨img.w, img.h, fun r c =>
    let p := N.rgb2hsv (img.pix r c)
    N.hsv2rgb (p.1, p.2.1, ((pyInt (min 255 (p.2.2 * nSum r c)) : ℤ) : ℚ))⟩

/-- One channel of the exponential (Beer–Lambert) recombination of
`adjust_stain` (img_manip.py line 579): `white × v^e1 × u^e2 × w^e3`,
then 8-bit saturation (`po._array_to_colour_255`, modelled from the
spec as clamping to `[0, 255]`). -/
def stain_recombine (qp : ℚ → ℚ → ℚ) (v u w : Pix) (e1 e2 e3 : ℚ) : Pix :=
  (clamp255 (255 * qp v.1 e1 * qp u.1 e2 * qp w.1 e3),
   clamp255 (255 * qp v.2.1 e1 * qp u.2.1 e2 * qp w.2.1 e3),
   clamp255 (255 * qp v.2.2 e1 * qp u.2.2 e2 * qp w.2.2 e3))

/-- `adjust_stain` (img_manip.py lines 532–584): the three density maps
are scaled by the per-basis adjustment factors and recombined through the
exponential model; the single-basis reconstructions are also returned. -/
def adjust_stain (N : Numerics) (img : Img) (adjFactor : ℚ × ℚ × ℚ) :
    (ℕ → ℕ → Pix) × (ℕ → ℕ → Pix) × (ℕ → ℕ → Pix) × (ℕ → ℕ → Pix) :=
  let v := N.getBasis.1
  let u := N.getBasis.2.1
  let w := N.getBasis.2.2
  let rgbOut : ℕ → ℕ → Pix := fun r c =>
    let d := N.outScalars img r c
    stain_recombine N.qpow v u w (d.1 * adjFactor.1) (d.2.1 * adjFactor.2.1)
      (d.2.2 * adjFactor.2.2)
  let rgb1 : ℕ → ℕ → Pix := fun r c =>
    let d := N.outScalars img r c
    (clamp255 (255 * N.qpow v.1 (d.1 * adjFactor.1)),
     clamp255 (255 * N.qpow v.2.1 (d.1 * adjFactor.1)),
     clamp255 (255 * N.qpow v.2.2 (d.1 * adjFactor.1)))
  let rgb2 : ℕ → ℕ → Pix := fun r c =>
    let d := N.outScalars img r c
    (clamp255 (255 * N.qpow u.1 (d.2.1 * adjFactor.2.1)),
     clamp255 (255 * N.qpow u.2.1 (d.2.1 * adjFactor.2.1)),
     clamp255 (255 * N.qpow u.2.2 (d.2.1 * adjFactor.2.1)))
  let rgb3 : ℕ → ℕ → Pix := fun r c =>
    let d := N.outScalars img r c
    (clamp255 (255 * N.qpow w.1 (d.2.2 * adjFactor.2.2)),
     clamp255 (255 * N.qpow w.2.1 (d.2.2 * adjFactor.2.2)),
     clamp255 (255 * N.qpow w.2.2 (d.2.2 * adjFactor.2.2)))
  (rgbOut, rgb1, rgb2, rgb3)

/-- `add_stain` (img_manip.py lines 586–619): when `adjFactor` is absent
the generator is seeded and each factor drawn as
`uniform(scaleMin, scaleMax) ** choice((-1, 1))`; otherwise no seeding
and no draws occur. -/
def add_stain (N : Numerics) (img : Img) (adjFactor : Option (ℚ × ℚ × ℚ))
    (scaleMax scaleMin : ℚ × ℚ × ℚ) (seed : Option ℤ) : PyM Img :=
  match adjFactor with
  | some f => pure ⟨img.w, img.h, (adjust_stain N img f).1⟩
  | none => do
      npRandomSeed seed
      let u1 ← npUniform scaleMin.1 scaleMax.1
      let s1 ← npChoicePM1
      let u2 ← npUniform scaleMin.2.1 scaleMax.2.1
      let s2 ← npChoicePM1
      let u3 ← npUniform scaleMin.2.2 scaleMax.2.2
      let s3 ← npChoicePM1
      let f : ℚ × ℚ × ℚ := ((if s1 = 1 then u1 else u1⁻¹),
        (if s2 = 1 then u2 else u2⁻¹), (if s3 = 1 then u3 else u3⁻¹))
      pure ⟨img.w, img.h, (adjust_stain N img f).1⟩

/-- A numpy size argument: negative counts raise `ValueError`. -/
def toCount (z : ℤ) : Except PyErr ℕ :=
  if z < 0 then .error .valueError else .ok z.toNat

/-- `np.cumsum`. -/
def cumsum (l : List ℚ) : List ℚ :=
  (l.foldl (fun st v => (st.1 + v, (st.1 + v) :: st.2)) (0, [])).2.reverse

/-- The point-rectification of `add_tear` (img_manip.py lines 769–771):
clamp both coordinates below by 0, x above by `dim[0]-1` and y above by
`dim[1]-1`. -/
def tear_rectify (dim : ℕ × ℕ) (pts : List Pt) : List Pt :=
  pts.map (fun p =>
    (min (max p.1 0) ((dim.1 : ℚ) - 1), min (max p.2 0) ((dim.2 : ℚ) - 1)))

/-- The layered point generation for one tear centre (img_manip.py lines
750–764): layer 0 replicates the centre; layer `k > 0` picks uniformly
random parents among layer `k-1`'s points; every point is displaced
along the local tangent `der` and normal `(der.y, -der.x)` by uniform
draws bounded by the layer's percentage row.  (Parent indices are drawn
in `[0, prev-count)` so the parent lookup is in bounds.) -/
def tear_layers_go (ilm ppm : ℚ) (ilPercs ppPercs : List (ℚ × ℚ)) (cent der : Pt) :
    List ℤ → ℕ → Option (List Pt) → PyM (List (List Pt))
  | [], _, _ => pure []
  | n :: rest, li, prev => do
      let nP ← pyLift (toCount n)
      let centPts ← match prev with
        | none => pure (List.replicate nP cent)
        | some pl => do
            let idxs ← npRandInts 0 (pl.length : ℤ) nP
            pure (idxs.map (fun i => pl.getD i.toNat (0, 0)))
      let pc ← pyLift (pyGet ilPercs li)
      let qc ← pyLift (pyGet ppPercs li)
      let ils ← npUniforms (pc.1 * ilm) (pc.2 * ilm) nP
      let pps ← npUniforms (qc.1 * ppm) (qc.2 * ppm) nP
      let newPts := (centPts.zip (ils.zip pps)).map (fun t =>
        (t.1.1 + t.2.1 * der.1 + t.2.2 * der.2,
         t.1.2 + t.2.1 * der.2 + t.2.2 * (-der.1)))
      let restL ← tear_layers_go ilm ppm ilPercs ppPercs cent der rest (li + 1) (some newPts)
      pure (newPts :: restL)

/-- `add_tear` (img_manip.py lines 622–797). -/
def add_tear (N : Numerics) (img : Img) (sampSpl : Option (List Pt))
    (seed : Option ℤ) (nPts : ℕ) (minSpacing maxSpacing : ℚ)
    (tearStartFactor tearEndFactor : ℚ × ℚ) (dirMin dirMax : ℚ)
    (inLineMaxO perpMaxO : Option ℚ) (ptRadius tearAlpha : ℚ)
    (inLinePercs perpPercs : List (ℚ × ℚ)) (l1MinCt l1MaxCt : ℤ)
    (minDensity maxDensity : List ℚ) (edgeWidth edgeAlpha : ℚ)
    (edgeColorMult : Pix) (rgbVal : Pix) (randEdge : Bool) : PyM Img := do
  npRandomSeed seed
  let dim := (img.w, img.h)
  let spl ← match sampSpl with
    | some s => pure s
    | none => rand_spline N dim none nPts seed (.bool true) (.int (-2))
  let tearSpacing ← npUniforms minSpacing maxSpacing spl.length
  let splLen : ℤ := (spl.length : ℤ) - 1
  let t0 ← npUniform tearStartFactor.1 tearStartFactor.2
  let t1 ← npUniform tearEndFactor.1 tearEndFactor.2
  let te0 := max (min (npRound (t0 * (splLen : ℚ))) splLen) 0
  let te1 := max (min (npRound (t1 * (splLen : ℚ))) splLen) 0
  let cdTS := ((cumsum tearSpacing).map npRound).filter (fun v => te0 ≤ v && v < te1)
  let tearCents ← mapPyM (fun i => pyLift (pyGet spl i.toNat)) cdTS
  let splDiffs := (spl.zip spl.tail).map (fun p => ((p.1.1 - p.2.1, p.1.2 - p.2.2) : Pt))
  let inLineMax ← match inLineMaxO with
    | none => npUniform dirMin dirMax
    | some v => pure v
  let perpMax ← match perpMaxO with
    | none => npUniform dirMin dirMax
    | some v => pure v
  let d0 ← pyLift (pyGet splDiffs 0)
  let splDer := d0 :: splDiffs
  let tearDer ← mapPyM (fun i => pyLift (pyGet splDer i.toNat)) cdTS
  let tearDensity := inLineMax * perpMax / (ptRadius ^ 2 * npPi)
  let nTears := tearCents.length
  let c0 ← npRandInts l1MinCt l1MaxCt nTears
  let dcols ← mapPyM (fun j => do
      let hiD ← pyLift (pyGet maxDensity j)
      npRandInts (npCeil (tearDensity * (minDensity.getD j 0)))
        (npCeil (tearDensity * hiD)) nTears) (List.range minDensity.length)
  let tearPts ← mapPyM (fun t => do
      let layers ← tear_layers_go inLineMax perpMax inLinePercs perpPercs
        (tearCents.getD t (0, 0)) (tearDer.getD t (0, 0))
        ((c0.getD t 0) :: dcols.map (fun col => col.getD t 0)) 0 none
      pure layers.flatten) (List.range cdTS.length)
  let rect := tear_rectify dim tearPts.flatten
  let zeros ← pyLift (maskZeros img.h img.w
    (rect.map (fun p => (npRound p.1, npRound p.2))))
  let tearDist0 := N.edt img.h img.w zeros
  let tearDist ← if randEdge then do
      let draws ← npUniforms (-((pyInt (ptRadius / 2) : ℤ) : ℚ))
        ((pyInt (ptRadius / 2) : ℤ) : ℚ) (img.h * img.w)
      pure (boxBlur5 img.h img.w (fun r c => tearDist0 r c + draws.getD (r * img.w + c) 0))
    else pure tearDist0
  let tearBW : ℕ → ℕ → Bool := fun r c => decide (tearDist r c ≤ ptRadius)
  let edgeArea : ℕ → ℕ → Bool := fun r c =>
    decide (ptRadius < tearDist r c) && decide (tearDist r c ≤ ptRadius + edgeWidth)
  let mc := imageMeanColor img
  let colorAt : ℕ → ℕ → Pix := fun r c =>
    if edgeArea r c then
      (u8 (min (mc.1 * edgeColorMult.1) 255),
       u8 (min (mc.2.1 * edgeColorMult.2.1) 255),
       u8 (min (mc.2.2 * edgeColorMult.2.2) 255))
    else rgbVal
  let alphaAt : ℕ → ℕ → ℚ := fun r c =>
    if edgeArea r c then ((pyInt (edgeAlpha * 255) : ℤ) : ℚ)
    else if tearBW r c then ((pyInt (tearAlpha * 255) : ℤ) : ℚ) else 0
  pure ⟨img.w, img.h, fun r c => pilComposite (colorAt r c) (img.pix r c) (alphaAt r c)⟩

/-- The artifact types dispatched by `apply_artifact`. -/
inductive ArtifactType where
  | marker | fold | sectioning | illumination | bubbles | stain | tear
  deriving DecidableEq, Repr

/-- The per-artifact-type seed offsets (img_manip.py line 837). -/
def typeSeedAdd : ArtifactType → ℤ
  | .marker => 1
  | .fold => 2
  | .sectioning => 3
  | .illumination => 4
  | .bubbles => 5
  | .stain => 6
  | .tear => 7

/-- The seed derivation of `apply_artifact` (img_manip.py lines
858–865): `hInt` is the identity string's blake2s digest read as a
(non-negative) integer — the hash itself is an external collaborator, so
the derivation is stated for an arbitrary digest value — plus the
caller's `randAdd` and the per-type offset, reduced modulo `2^32 - 1`. -/
def apply_artifact_seed (hInt : ℤ) (randAdd : ℤ) (t : ArtifactType) : ℤ :=
  (hInt + randAdd + typeSeedAdd t) % 4294967295

/-- A concrete `Numerics` instance for evaluating control-flow facts on
small inputs: every numeric core is a trivial (but type-correct)
function.  Facts evaluated with it concern only seeding, draw structure
and error paths, which the cores do not influence. -/
def N0 : Numerics where
  pchipCore := fun pts => pts
  edt := fun _ _ _ => fun _ _ => 0
  warpPad := fun arr _ _ _ _ => arr
  gaussBlur := fun _ f => f
  gaussPdf := fun _ _ _ => 0
  rgb2hsv := fun p => p
  hsv2rgb := fun p => p
  outScalars := fun _ _ _ => (0, 0, 0)
  getBasis := ((0, 0, 0), (0, 0, 0), (0, 0, 0))
  qpow := fun b _ => b
  qsqrt := fun _ => 0

/-- A concrete 5×5 mid-gray image. -/
def img55 : Img := ⟨5, 5, fun _ _ => (100, 100, 100)⟩

/-- A concrete 1×1 image. -/
def img11 : Img := ⟨1, 1, fun _ _ => (0, 0, 0)⟩

/-- The default keyword arguments of `add_fold`
(`scaleXY=[1,1], width=200, sampShiftXY=None, randEdge=False, nPts=3,
endEdge=-2`). -/
def foldDefaultArgs : FoldArgs := ⟨(1, 1), 200, none, false, 3, .int (-2)⟩

/-- The default `rgbRange` of `add_marker`
(`[[0,50],[0,50],[0,100]]`). -/
def markerRgbDefault : (ℤ × ℤ) × (ℤ × ℤ) × (ℤ × ℤ) := ((0, 50), (0, 50), (0, 100))

/-- Whether a point lies exactly on edge `e` of an image of size `dim`
(0 = left `x=0`, 1 = top `y=0`, 2 = right `x=w-1`, 3 = bottom
`y=h-1`). -/
def onEdge (dim : ℕ × ℕ) (e : ℤ) (p : Pt) : Bool :=
  if e = 0 then p.1 = 0
  else if e = 1 then p.2 = 0
  else if e = 2 then p.1 = (dim.1 : ℚ) - 1
  else p.2 = (dim.2 : ℚ) - 1

/-- Squared Euclidean distance between two raster cells. -/
def sqCellDist (p q : ℕ × ℕ) : ℤ :=
  ((p.1 : ℤ) - q.1) ^ 2 + ((p.2 : ℤ) - q.2) ^ 2

/-- Minimal squared distance from a cell to a (nonempty) zero set. -/
def minSqDist (p : ℕ × ℕ) : List (ℕ × ℕ) → ℤ
  | [] => 0
  | z :: t => t.foldl (fun m z2 => min m (sqCellDist p z2)) (sqCellDist p z)

/-- Decidable check that `dm` is the exact Euclidean distance transform
of the `h × w` raster whose zero cells are `zeros`: every value is
non-negative and its square is the minimal squared cell distance to the
(nonempty) zero set. -/
def isEDTat (h w : ℕ) (zeros : List (ℕ × ℕ)) (dm : GridQ) : Bool :=
  !zeros.isEmpty &&
    (List.range h).all (fun r => (List.range w).all (fun c =>
      decide (0 ≤ dm r c) && decide ((dm r c) ^ 2 = ((minSqDist (r, c) zeros : ℤ) : ℚ))))

instance [DecidableEq ε] [DecidableEq α] : DecidableEq (Except ε α) := fun a b =>
  match a, b with
  | .ok x, .ok y => if h : x = y then .isTrue (by rw [h]) else .isFalse (by simp [h])
  | .error e, .error f => if h : e = f then .isTrue (by rw [h]) else .isFalse (by simp [h])
  | .ok _, .error _ => .isFalse (by simp)
  | .error _, .ok _ => .isFalse (by simp)

/-- A 40-wide, 5-tall image for the sectioning-jitter analysis. -/
def secCexImg : Img := ⟨40, 5, fun _ _ => (100, 100, 100)⟩

/-- A supplied sectioning spline running down the left column `x = 0`,
one sample per row. -/
def secCexSpl : List Pt := [(0, 0), (0, 1), (0, 2), (0, 3), (0, 4)]

/-- The mask zero cells that `secCexSpl` rasterizes to. -/
def secCexZeros : List (ℕ × ℕ) := [(0, 0), (1, 0), (2, 0), (3, 0), (4, 0)]

/-- The exact Euclidean distance raster for `secCexZeros` on the 5×40
grid: the distance of cell `(r, c)` to the zero column is `c`. -/
def secCexDist : GridQ := fun _ c => (c : ℚ)

/-- `N0` with the distance-transform collaborator returning
`secCexDist` (certified against `isEDTat` where it is used). -/
def secCexN : Numerics := { N0 with edt := fun _ _ _ => secCexDist }

/-- Membership of pixel `(r, c)` in the thresholded sectioning region
computed by `add_sectioning_region` on `secCexImg` with the supplied
spline, `randEdge = True`, seed 0, at the given `width`. -/
def secCexMem (width : ℚ) (r c : ℕ) : Bool :=
  match pyOut (add_sectioning_region secCexN secCexImg width (some 0) true
      (some secCexSpl) none 2 (.int (-2))) ⟨0⟩ with
  | .ok st => st.1 r c
  | .error _ => false

/-- `N0` with a trivial float-power collaborator whose value at exponent
anything is 1 (used to witness the stain identity on a white image). -/
def stainWitN : Numerics := { N0 with qpow := fun _ _ => 1 }

/-- A 1×1 white image. -/
def imgWhite : Img := ⟨1, 1, fun _ _ => (255, 255, 255)⟩

/-! ## Helper lemmas about running `PyM` fragments -/

theorem run_bind (m : PyM α) (k : α → PyM β) (g : RNG) :
    (m >>= k) g = match m g with
      | .ok (a, g1) => k a g1
      | .error e => .error e := rfl

theorem run_pure (a : α) (g : RNG) : (pure a : PyM α) g = .ok (a, g) := rfl

theorem run_seed_none (g : RNG) : npRandomSeed none g = .ok ((), g) := rfl

theorem run_seed_valid (s : ℤ) (hv : 0 ≤ s ∧ s < 4294967296) (g : RNG) :
    npRandomSeed (some s) g = .ok ((), rngOfSeed s) := by
  show (if 0 ≤ s ∧ s < 4294967296 then (.ok ((), rngOfSeed s) : Except PyErr (Unit × RNG))
      else .error .valueError) = _
  rw [if_pos hv]

theorem pyFails_bind (m : PyM α) (k : α → PyM β) (g : RNG)
    (h : ∀ a g1, pyFails (k a) g1 = true) : pyFails (m >>= k) g = true := by
  unfold pyFails
  rw [run_bind]
  cases hm : m g with
  | ok p => exact h p.1 p.2
  | error e => rfl

theorem pyFails_throw (e : PyErr) (g : RNG) : pyFails (pyThrow e : PyM α) g = true := rfl

/-! ## C2 -/

/-- C2: `apply_artifact`'s seed derivation is a pure function of the
digest integer, the extra offset and the artifact type; the result is
the sum reduced modulo `2^32 - 1`, hence a non-negative integer below
`2^32 - 1`; and for a fixed digest and extra offset, distinct artifact
types always derive distinct seeds. -/
theorem C2_seed_derivation (hInt randAdd : ℤ) (t u : ArtifactType) :
    apply_artifact_seed hInt randAdd t = (hInt + randAdd + typeSeedAdd t) % 4294967295 ∧
    0 ≤ apply_artifact_seed hInt randAdd t ∧
    apply_artifact_seed hInt randAdd t < 4294967295 ∧
    (t ≠ u → apply_artifact_seed hInt randAdd t ≠ apply_artifact_seed hInt randAdd u) := by
  refine ⟨rfl, Int.emod_nonneg _ (by decide), Int.emod_lt_of_pos _ (by decide), ?_⟩
  intro hne heq
  unfold apply_artifact_seed at heq
  cases t <;> cases u <;> simp only [typeSeedAdd] at heq <;>
    first
      | exact hne rfl
      | omega

/-- Witness for C2 at a concrete digest, offset and type pair. -/
theorem C2_seed_derivation_witness :
    apply_artifact_seed 99 5 .marker ≠ apply_artifact_seed 99 5 .fold ∧
    0 ≤ apply_artifact_seed 99 5 .marker :=
  ⟨(C2_seed_derivation 99 5 .marker .fold).2.2.2 (by decide),
   (C2_seed_derivation 99 5 .marker .fold).2.1⟩

/-! ## C4 -/

/-- C4: the spline branch of `add_sectioning` is inverted relative to
its parameter documentation.  When handle points `inPts` are supplied
the path is built from `nPts` fresh random handle points with the
requested `endEdge` behaviour — the right-hand side does not mention
`pts` at all — and when `inPts` is absent the call ignores `nPts` and
`endEdge` and uses `rand_spline`'s defaults (`nPts = 5`,
`endEdge = True`). -/
theorem C4_sectioning_branch_swap :
    (∀ (N : Numerics) (dim : ℕ × ℕ) (pts : List Pt) (nPts : ℕ) (endEdge : PyVal)
        (seed : Option ℤ),
      sectioning_spline N dim none (some pts) nPts endEdge seed =
        rand_spline N dim none nPts seed (.bool true) endEdge) ∧
    (∀ (N : Numerics) (dim : ℕ × ℕ) (nPts : ℕ) (endEdge : PyVal) (seed : Option ℤ),
      sectioning_spline N dim none none nPts endEdge seed =
        rand_spline N dim none 5 seed (.bool true) (.bool true)) :=
  ⟨fun _ _ _ _ _ _ => rfl, fun _ _ _ _ _ => rfl⟩

/-! ## C1 -/

/-- C1: for every artifact generator, every fixed input image, parameter
set and *integer* random seed, the observable output is independent of
the ambient global generator state: two independent invocations (from
arbitrary prior states `g1`, `g2`) produce identical results, because
each function's first action re-seeds the global generator.  Stated for
all seven of `add_marker`, `add_fold`, `add_sectioning`,
`add_illumination`, `add_bubbles`, `add_stain` and `add_tear`. -/
theorem C1_artifact_determinism :
    (∀ (N : Numerics) (img : Img) (s : ℤ) (nPts : ℕ) (sampSpl inPts : Option (List Pt))
        (width alpha : ℚ) (rgbVal : Option Pix) (rgbRange : (ℤ × ℤ) × (ℤ × ℤ) × (ℤ × ℤ))
        (g1 g2 : RNG),
      pyOut (add_marker N img (some s) nPts sampSpl inPts width alpha rgbVal rgbRange) g1 =
        pyOut (add_marker N img (some s) nPts sampSpl inPts width alpha rgbVal rgbRange) g2) ∧
    (∀ (N : Numerics) (img : Img) (sampArr : Option (ℕ → ℕ → Pix))
        (sampSpl inPts : Option (List Pt)) (s : ℤ) (a : FoldArgs) (nLayers : ℤ) (g1 g2 : RNG),
      pyOut (add_fold N img sampArr sampSpl inPts (some s) a nLayers) g1 =
        pyOut (add_fold N img sampArr sampSpl inPts (some s) a nLayers) g2) ∧
    (∀ (N : Numerics) (img : Img) (s : ℤ) (width scaleMin scaleMax : ℚ) (randEdge : Bool)
        (sampSpl inPts : Option (List Pt)) (nPts : ℕ) (endEdge : PyVal) (g1 g2 : RNG),
      pyOut (add_sectioning N img width (some s) scaleMin scaleMax randEdge sampSpl inPts
          nPts endEdge) g1 =
        pyOut (add_sectioning N img width (some s) scaleMin scaleMax randEdge sampSpl inPts
          nPts endEdge) g2) ∧
    (∀ (N : Numerics) (img : Img) (s : ℤ) (maxCov : ℚ) (nNorms : ℕ)
        (scaleMin scaleMax mcs mdcs mccs : ℚ) (g1 g2 : RNG),
      pyOut (add_illumination N img (some s) maxCov nNorms scaleMin scaleMax mcs mdcs mccs) g1 =
        pyOut (add_illumination N img (some s) maxCov nNorms scaleMin scaleMax mcs mdcs mccs) g2) ∧
    (∀ (N : Numerics) (img : Img) (s : ℤ) (nBubbles : ℕ) (maxWidth alpha edgeWidth : ℚ)
        (edgeColorMult rgbVal : Pix) (g1 g2 : RNG),
      pyOut (add_bubbles N img (some s) nBubbles maxWidth alpha edgeWidth edgeColorMult
          rgbVal) g1 =
        pyOut (add_bubbles N img (some s) nBubbles maxWidth alpha edgeWidth edgeColorMult
          rgbVal) g2) ∧
    (∀ (N : Numerics) (img : Img) (adjFactor : Option (ℚ × ℚ × ℚ)) (scaleMax scaleMin : ℚ × ℚ × ℚ)
        (s : ℤ) (g1 g2 : RNG),
      pyOut (add_stain N img adjFactor scaleMax scaleMin (some s)) g1 =
        pyOut (add_stain N img adjFactor scaleMax scaleMin (some s)) g2) ∧
    (∀ (N : Numerics) (img : Img) (sampSpl : Option (List Pt)) (s : ℤ) (nPts : ℕ)
        (minSpacing maxSpacing : ℚ) (tsf tef : ℚ × ℚ) (dirMin dirMax : ℚ)
        (inLineMaxO perpMaxO : Option ℚ) (ptRadius tearAlpha : ℚ)
        (inLinePercs perpPercs : List (ℚ × ℚ)) (l1MinCt l1MaxCt : ℤ)
        (minDensity maxDensity : List ℚ) (edgeWidth edgeAlpha : ℚ)
        (edgeColorMult rgbVal : Pix) (randEdge : Bool) (g1 g2 : RNG),
      pyOut (add_tear N img sampSpl (some s) nPts minSpacing maxSpacing tsf tef dirMin dirMax
          inLineMaxO perpMaxO ptRadius tearAlpha inLinePercs perpPercs l1MinCt l1MaxCt
          minDensity maxDensity edgeWidth edgeAlpha edgeColorMult rgbVal randEdge) g1 =
        pyOut (add_tear N img sampSpl (some s) nPts minSpacing maxSpacing tsf tef dirMin dirMax
          inLineMaxO perpMaxO ptRadius tearAlpha inLinePercs perpPercs l1MinCt l1MaxCt
          minDensity maxDensity edgeWidth edgeAlpha edgeColorMult rgbVal randEdge) g2) := by
  refine ⟨fun _ _ _ _ _ _ _ _ _ _ _ _ => rfl, ?_, fun _ _ _ _ _ _ _ _ _ _ _ _ _ => rfl,
    fun _ _ _ _ _ _ _ _ _ _ _ _ => rfl, fun _ _ _ _ _ _ _ _ _ _ _ => rfl, ?_,
    fun _ _ _ _ _ _ _ _ _ _ _ _ _ _ _ _ _ _ _ _ _ _ _ _ _ _ _ _ => rfl⟩
  · intro N img sampArr sampSpl inPts s a nLayers g1 g2
    unfold add_fold
    cases nLayers.toNat with
    | zero => rfl
    | succ k => rfl
  · intro N img adjFactor scaleMax scaleMin s g1 g2
    cases adjFactor <;> rfl

/-! ## C3 -/

/-- C3 counterexample: `add_fold` with `nLayers = 0` but
`random_seed = -1` raises `ValueError` from `np.random.seed` (line 265
runs before the `nLayers < 1` early return), so it does not return the
input image — the claim's "regardless of all other parameters" fails
for out-of-range seeds. -/
theorem C3_counterexample :
    pyOut (add_fold N0 img55 none none none (some (-1)) foldDefaultArgs 0) ⟨3⟩ =
      .error .valueError ∧
    (Except.error PyErr.valueError : Except PyErr Img) ≠ .ok img55 :=
  ⟨rfl, fun h => Except.noConfusion h⟩

/-- C3 (amended): for every input image and every `nLayers < 1`,
`add_fold` returns the input image unchanged for all other parameters,
provided the seed argument is acceptable to `np.random.seed` (absent,
or an integer in `[0, 2^32)`). -/
theorem C3_fold_noop (N : Numerics) (img : Img) (sampArr : Option (ℕ → ℕ → Pix))
    (sampSpl inPts : Option (List Pt)) (seed : Option ℤ) (a : FoldArgs) (nLayers : ℤ)
    (g : RNG) (hn : nLayers < 1)
    (hs : seed = none ∨ ∃ v, seed = some v ∧ 0 ≤ v ∧ v < 4294967296) :
    pyOut (add_fold N img sampArr sampSpl inPts seed a nLayers) g = .ok img := by
  have h0 : nLayers.toNat = 0 := Int.toNat_eq_zero.mpr (by omega)
  unfold add_fold
  rw [h0]
  rcases hs with rfl | ⟨v, rfl, hv0, hv1⟩
  · rfl
  · show pyOut (npRandomSeed (some v) >>= fun _ => pure img) g = .ok img
    unfold pyOut
    rw [run_bind, run_seed_valid v ⟨hv0, hv1⟩]
    rfl

/-- Witness for C3 at `nLayers = 0`, seed 7. -/
theorem C3_fold_noop_witness :
    pyOut (add_fold N0 img55 none none none (some 7) foldDefaultArgs 0) ⟨3⟩ = .ok img55 ∧
    (0 : ℤ) < 1 :=
  ⟨C3_fold_noop N0 img55 none none none (some 7) foldDefaultArgs 0 ⟨3⟩ (by decide)
      (Or.inr ⟨7, rfl, by decide, by decide⟩),
   by decide⟩

/-! ## C5 -/

theorem abs_clamp255_sub_le (x o : ℚ) (h0 : 0 ≤ o) (h255 : o ≤ 255) :
    |clamp255 x - o| ≤ |x - o| := by
  unfold clamp255
  rcases le_total x 0 with hx | hx
  · rw [min_eq_right (hx.trans (by norm_num)), max_eq_left hx,
      abs_of_nonpos (by linarith), abs_of_nonpos (by linarith)]
    linarith
  · rcases le_total x 255 with hx2 | hx2
    · rw [min_eq_right hx2, max_eq_right hx]
    · rw [min_eq_left hx2, max_eq_right (by norm_num : (0 : ℚ) ≤ 255),
        abs_of_nonneg (by linarith), abs_of_nonneg (by linarith)]
      linarith

/-- C5: with `adjFactor = [1, 1, 1]`, `adjust_stain`'s primary output
`rgbOut` reproduces the original image within the accuracy of the
external decomposition.  The decomposition contract is the spec's:
recombining the density maps through the exponential model reproduces
the original pixel within `eps` per channel (and pixels are 8-bit, i.e.
in `[0, 255]`); then each output channel is within the same `eps` of
the original, because an adjustment exponent of 1 is the identity of
the model and the 8-bit clamp can only move values closer to an
in-range target. -/
theorem C5_stain_roundtrip (N : Numerics) (img : Img) (r c : ℕ) (eps : ℚ)
    (h1 : |255 * N.qpow N.getBasis.1.1 (N.outScalars img r c).1
        * N.qpow N.getBasis.2.1.1 (N.outScalars img r c).2.1
        * N.qpow N.getBasis.2.2.1 (N.outScalars img r c).2.2 - (img.pix r c).1| ≤ eps)
    (h2 : |255 * N.qpow N.getBasis.1.2.1 (N.outScalars img r c).1
        * N.qpow N.getBasis.2.1.2.1 (N.outScalars img r c).2.1
        * N.qpow N.getBasis.2.2.2.1 (N.outScalars img r c).2.2 - (img.pix r c).2.1| ≤ eps)
    (h3 : |255 * N.qpow N.getBasis.1.2.2 (N.outScalars img r c).1
        * N.qpow N.getBasis.2.1.2.2 (N.outScalars img r c).2.1
        * N.qpow N.getBasis.2.2.2.2 (N.outScalars img r c).2.2 - (img.pix r c).2.2| ≤ eps)
    (hb1 : 0 ≤ (img.pix r c).1 ∧ (img.pix r c).1 ≤ 255)
    (hb2 : 0 ≤ (img.pix r c).2.1 ∧ (img.pix r c).2.1 ≤ 255)
    (hb3 : 0 ≤ (img.pix r c).2.2 ∧ (img.pix r c).2.2 ≤ 255) :
    |((adjust_stain N img (1, 1, 1)).1 r c).1 - (img.pix r c).1| ≤ eps ∧
    |((adjust_stain N img (1, 1, 1)).1 r c).2.1 - (img.pix r c).2.1| ≤ eps ∧
    |((adjust_stain N img (1, 1, 1)).1 r c).2.2 - (img.pix r c).2.2| ≤ eps := by
  refine ⟨?_, ?_, ?_⟩
  · show |clamp255 (255 * N.qpow N.getBasis.1.1 ((N.outScalars img r c).1 * 1)
        * N.qpow N.getBasis.2.1.1 ((N.outScalars img r c).2.1 * 1)
        * N.qpow N.getBasis.2.2.1 ((N.outScalars img r c).2.2 * 1)) - (img.pix r c).1| ≤ eps
    rw [mul_one, mul_one, mul_one]
    exact (abs_clamp255_sub_le _ _ hb1.1 hb1.2).trans h1
  · show |clamp255 (255 * N.qpow N.getBasis.1.2.1 ((N.outScalars img r c).1 * 1)
        * N.qpow N.getBasis.2.1.2.1 ((N.outScalars img r c).2.1 * 1)
        * N.qpow N.getBasis.2.2.2.1 ((N.outScalars img r c).2.2 * 1)) - (img.pix r c).2.1| ≤ eps
    rw [mul_one, mul_one, mul_one]
    exact (abs_clamp255_sub_le _ _ hb2.1 hb2.2).trans h2
  · show |clamp255 (255 * N.qpow N.getBasis.1.2.2 ((N.outScalars img r c).1 * 1)
        * N.qpow N.getBasis.2.1.2.2 ((N.outScalars img r c).2.1 * 1)
        * N.qpow N.getBasis.2.2.2.2 ((N.outScalars img r c).2.2 * 1)) - (img.pix r c).2.2| ≤ eps
    rw [mul_one, mul_one, mul_one]
    exact (abs_clamp255_sub_le _ _ hb3.1 hb3.2).trans h3

/-! ## C6 -/

theorem run_seed_invalid (s : ℤ) (hv : ¬(0 ≤ s ∧ s < 4294967296)) (g : RNG) :
    npRandomSeed (some s) g = .error .valueError := by
  show (if 0 ≤ s ∧ s < 4294967296 then (.ok ((), rngOfSeed s) : Except PyErr (Unit × RNG))
      else .error .valueError) = _
  rw [if_neg hv]

/-- C6 counterexample: `rand_spline` with a single supplied handle
point fails with the interpolation library's `ValueError`, not with an
`InvalidInputError` — no such exception class exists anywhere in the
repository, and `img_manip.py` contains no `raise` statement at all. -/
theorem C6_counterexample :
    pyOut (rand_spline N0 (5, 5) (some [(1, 1)]) 5 (some 0) (.bool true) (.bool true)) ⟨3⟩ =
      .error .valueError ∧ PyErr.valueError ≠ PyErr.invalidInputError :=
  ⟨rfl, by decide⟩

/-- C6 (amended): with fewer than 2 effective handle points,
`rand_spline` fails with the underlying numerical library's
`ValueError` (raised by the PCHIP breakpoint validation), not with a
custom `InvalidInputError`: stated for every supplied handle-point list
of length < 2, and for the concrete random branch with `nPts = 1`. -/
theorem C6_rand_spline_too_few_points :
    (∀ (N : Numerics) (dim : ℕ × ℕ) (pts : List Pt) (nPts : ℕ) (seed : Option ℤ)
        (startEdge endEdge : PyVal) (g : RNG), pts.length < 2 →
      pyOut (rand_spline N dim (some pts) nPts seed startEdge endEdge) g =
        .error .valueError) ∧
    pyOut (rand_spline N0 (5, 5) none 1 (some 0) (.bool true) (.bool true)) ⟨3⟩ =
      .error .valueError := by
  constructor
  · intro N dim pts nPts seed sE eE g h
    have hp : pchip_arclen N pts = .error .valueError := by
      unfold pchip_arclen
      rw [if_pos h]
    show Except.map Prod.fst ((npRandomSeed seed >>=
      fun _ => (pure pts : PyM (List Pt)) >>= fun q => pyLift (pchip_arclen N q)) g) =
        .error .valueError
    rcases seed with _ | s
    · rw [run_bind, run_seed_none]
      show Except.map Prod.fst
        (((pure pts : PyM (List Pt)) >>= fun q => pyLift (pchip_arclen N q)) g) = _
      rw [run_bind, run_pure]
      show Except.map Prod.fst (pyLift (pchip_arclen N pts) g) = _
      rw [hp]
      rfl
    · by_cases hv : 0 ≤ s ∧ s < 4294967296
      · rw [run_bind, run_seed_valid s hv]
        show Except.map Prod.fst
          (((pure pts : PyM (List Pt)) >>= fun q => pyLift (pchip_arclen N q)) (rngOfSeed s)) = _
        rw [run_bind, run_pure]
        show Except.map Prod.fst (pyLift (pchip_arclen N pts) (rngOfSeed s)) = _
        rw [hp]
        rfl
      · rw [run_bind, run_seed_invalid s hv]
        rfl
  · rfl

/-- Witness for the amended C6 on a 2-point-free input. -/
theorem C6_too_few_points_witness :
    pyOut (rand_spline N0 (7, 9) (some [(2, 3)]) 5 none (.bool false) (.int 2)) ⟨11⟩ =
      .error .valueError ∧ ([((2 : ℚ), (3 : ℚ))] : List Pt).length < 2 :=
  ⟨C6_rand_spline_too_few_points.1 N0 (7, 9) [(2, 3)] 5 none (.bool false) (.int 2) ⟨11⟩
      (by decide),
   by decide⟩

/-! ## C7 -/

/-- C7 (amended): in `add_marker` the thresholded region is monotone in
`width` (all else fixed), and in `add_sectioning` it is monotone when
`randEdge` is off, in which case the thresholded distance raster does
not depend on `width` at all.  (With `randEdge = True` — the
`add_sectioning` default — the jitter drawn into the distance raster
has width-dependent amplitude, and monotonicity fails; see the
counterexample.) -/
theorem C7_region_monotonicity :
    (∀ (bwDist : GridQ) (w1 w2 : ℚ) (r c : ℕ), w1 ≤ w2 →
      markerReg bwDist w1 r c = true → markerReg bwDist w2 r c = true) ∧
    (∀ (width : ℚ) (h w : ℕ) (d : GridQ) (g : RNG),
      sectioning_bwdist width false h w d g = .ok (d, g)) ∧
    (∀ (d : GridQ) (w1 w2 : ℚ) (r c : ℕ), w1 ≤ w2 →
      sectioning_reg d w1 r c = true → sectioning_reg d w2 r c = true) := by
  refine ⟨?_, fun _ _ _ _ _ => rfl, ?_⟩
  · intro bw w1 w2 r c hw h
    unfold markerReg at h ⊢
    rw [decide_eq_true_iff] at h ⊢
    linarith
  · intro d w1 w2 r c hw h
    unfold sectioning_reg at h ⊢
    rw [decide_eq_true_iff] at h ⊢
    linarith

section

attribute [local semireducible] Rat.mul Rat.inv Rat.add Rat.sub Rat.ofScientific

set_option maxRecDepth 400000 in
/-- C7 counterexample: on a 5×40 image with the spline supplied as the
left column (so the library distance transform is exactly the column
index, certified by `isEDTat`), with everything fixed (seed 0, default
`randEdge = True`), pixel `(2, 21)` is inside the thresholded sectioning
region at `width = 40` but *outside* it at the larger `width = 42`: the
jitter added to the distance raster is drawn from a width-dependent
range, so growing the width shrinks the region at this pixel. -/
theorem C7_counterexample :
    maskZeros 5 40 (secCexSpl.map (fun p => (pyInt p.1, pyInt p.2))) = .ok secCexZeros ∧
    isEDTat 5 40 secCexZeros secCexDist = true ∧
    ((40 : ℚ) ≤ 42) ∧
    secCexMem 40 2 21 = true ∧
    secCexMem 42 2 21 = false := by decide

/-- Witness for the amended C7 at concrete widths `0 ≤ 1` and a zero
distance raster. -/
theorem C7_region_monotonicity_witness :
    ((0 : ℚ) ≤ 1) ∧ markerReg (fun _ _ => 0) 0 0 0 = true ∧
    markerReg (fun _ _ => 0) 1 0 0 = true ∧
    sectioning_reg (fun _ _ => 0) 1 0 0 = true :=
  ⟨by decide, by decide,
   C7_region_monotonicity.1 (fun _ _ => 0) 0 1 0 0 (by decide) (by decide),
   C7_region_monotonicity.2.2 (fun _ _ => 0) 0 1 0 0 (by decide) (by decide)⟩

end

/-! ## C8 -/


theorem run_randint_ok (lo hi : ℤ) (hlt : lo < hi) (g : RNG) :
    npRandInt lo hi g = .ok (lo + ((rngStep g).1 : ℤ) % (hi - lo), (rngStep g).2) := by
  unfold npRandInt
  rw [if_pos hlt]

theorem npRandInts_ok (lo hi : ℤ) (hlt : lo < hi) : ∀ (n : ℕ) (g : RNG),
    ∃ l g1, npRandInts lo hi n g = .ok (l, g1) ∧ l.length = n := by
  intro n
  induction n with
  | zero =>
      intro g
      refine ⟨[], g, ?_, rfl⟩
      unfold npRandInts
      rw [if_pos hlt]
  | succ k ih =>
      intro g
      obtain ⟨l, g1, hl, hlen⟩ := ih (rngStep g).2
      refine ⟨(lo + ((rngStep g).1 : ℤ) % (hi - lo)) :: l, g1, ?_, by simp [hlen]⟩
      show (npRandInt lo hi >>= fun v => npRandInts lo hi k >>= fun rest => pure (v :: rest)) g = _
      rw [run_bind, run_randint_ok lo hi hlt g]
      show (npRandInts lo hi k >>= fun rest => pure ((lo + ((rngStep g).1 : ℤ) % (hi - lo)) :: rest)) (rngStep g).2 = _
      rw [run_bind, hl]
      rfl


theorem run_pyLift_ok (a : α) (g : RNG) : pyLift (.ok a) g = .ok (a, g) := rfl

theorem edgePin_zero_cons (dim : ℕ × ℕ) (en : ℤ) (a : Pt) (l : List Pt) :
    edgePin dim en 0 (a :: l) =
      .ok ((if en % 2 = 0 then (((en / 2 : ℤ) : ℚ) * ((dim.1 : ℚ) - 1), a.2)
        else (a.1, ((en / 2 : ℤ) : ℚ) * ((dim.2 : ℚ) - 1))) :: l) := by
  unfold edgePin setCoord
  rw [dif_pos (by simp)]
  by_cases hc : en % 2 = 0
  · simp only [if_pos hc, List.set_cons_zero]
    rfl
  · simp only [if_neg hc, List.set_cons_zero]
    rfl

theorem edgePin_succ_cons (dim : ℕ × ℕ) (en : ℤ) (i : ℕ) (a : Pt) (l : List Pt)
    (h : i < l.length) : ∃ l2, edgePin dim en (i + 1) (a :: l) = .ok (a :: l2) := by
  unfold edgePin setCoord
  rw [dif_pos (by simp; omega)]
  rw [List.set_cons_succ]
  exact ⟨_, rfl⟩

/-- C8 (amended): in `rand_spline`'s random-handle-point block, when a
start edge index `E ∈ {0,1,2,3}` is forced and there are at least two
handle points (and the image is at least 2×2, so the coordinate draws
succeed), the generation succeeds and the *first* handle point lies
exactly on edge `E` (`x = 0`, `y = 0`, `x = w-1`, `y = h-1` for
`E = 0,1,2,3` respectively): the end-edge pinning then touches only the
last point.  (With a single handle point the end-edge pinning overwrites
the first point — see the counterexample.) -/
theorem C8_start_edge_pinning (dim : ℕ × ℕ) (nPts : ℕ) (e : ℤ) (endEdge : PyVal) (g : RNG)
    (he0 : 0 ≤ e) (he4 : e < 4) (hn : 2 ≤ nPts) (hw : 2 ≤ dim.1) (hh : 2 ≤ dim.2) :
    ∃ p rest, pyOut (rand_spline_handles dim nPts (.int e) endEdge) g = .ok (p :: rest) ∧
      onEdge dim e p = true := by
  obtain ⟨n, rfl⟩ : ∃ n, nPts = n + 2 := ⟨nPts - 2, by omega⟩
  have hx : (0 : ℤ) < (dim.1 : ℤ) - 1 := by
    have : (2 : ℤ) ≤ (dim.1 : ℤ) := by exact_mod_cast hw
    omega
  have hy : (0 : ℤ) < (dim.2 : ℤ) - 1 := by
    have : (2 : ℤ) ≤ (dim.2 : ℤ) := by exact_mod_cast hh
    omega
  obtain ⟨xs, g1, hxs, hxslen⟩ := npRandInts_ok 0 ((dim.1 : ℤ) - 1) hx (n + 2) g
  obtain ⟨ys, g2, hys, hyslen⟩ := npRandInts_ok 0 ((dim.2 : ℤ) - 1) hy (n + 2) g1
  rcases xs with _ | ⟨x0, xs⟩
  · simp at hxslen
  rcases xs with _ | ⟨x1, xs⟩
  · simp at hxslen
  rcases ys with _ | ⟨y0, ys⟩
  · simp at hyslen
  rcases ys with _ | ⟨y1, ys⟩
  · simp at hyslen
  have hflag : ((PyVal.int e).eqTrue || (PyVal.int e).inR04) = true := by
    simp [PyVal.eqTrue, PyVal.inR04, PyVal.toZ]
    omega
  have hinner : ((PyVal.int e).inR04 && (PyVal.int e).isInt) = true := by
    simp [PyVal.inR04, PyVal.isInt, PyVal.toZ]
    omega
  unfold pyOut rand_spline_handles
  simp only [run_bind, hxs, hys, hflag, hinner, if_true, run_pure, PyVal.toZ,
    List.zip_cons_cons, List.map_cons, edgePin_zero_cons, run_pyLift_ok]
  have hxl : xs.length = n := by simpa using hxslen
  have hyl : ys.length = n := by simpa using hyslen
  set TL : List Pt := ((x1 : ℚ), (y1 : ℚ)) ::
      List.map (fun p => ((p.1 : ℚ), (p.2 : ℚ))) (xs.zip ys) with hTL
  set PIN : Pt := (if e % 2 = 0 then (((e / 2 : ℤ) : ℚ) * ((dim.1 : ℚ) - 1), (y0 : ℚ))
      else ((x0 : ℚ), ((e / 2 : ℤ) : ℚ) * ((dim.2 : ℚ) - 1))) with hPIN
  have htl : TL.length = n + 1 := by
    rw [hTL]
    simp [List.length_zip, hxl, hyl]
  have hedge : onEdge dim e PIN = true := by
    rw [hPIN]
    interval_cases e <;> simp [onEdge]
  have hpin : ∀ (en : ℤ) (g3 : RNG), ∃ l2,
      Except.map Prod.fst (pyLift (edgePin dim en (n + 2 - 1) (PIN :: TL)) g3) =
        Except.ok (PIN :: l2) := by
    intro en g3
    obtain ⟨l2, hl2⟩ := edgePin_succ_cons dim en n PIN TL (by omega)
    rw [show n + 2 - 1 = n + 1 from rfl, hl2, run_pyLift_ok]
    exact ⟨l2, rfl⟩
  split
  · split
    · simp only [run_bind, run_pure]
      obtain ⟨l2, hl2⟩ := hpin _ g2
      exact ⟨PIN, l2, hl2, hedge⟩
    · split
      · simp only [run_bind, run_pure]
        obtain ⟨l2, hl2⟩ := hpin _ g2
        exact ⟨PIN, l2, hl2, hedge⟩
      · simp only [run_bind, run_randint_ok 0 4 (by decide) g2]
        obtain ⟨l2, hl2⟩ := hpin _ (rngStep g2).2
        exact ⟨PIN, l2, hl2, hedge⟩
  · exact ⟨PIN, TL, rfl, hedge⟩

section

attribute [local semireducible] Rat.mul Rat.inv Rat.add Rat.sub Rat.ofScientific

/-- C8 counterexample: with `nPts = 1`, a forced start edge 3 (bottom)
and the default `endEdge = True` (which Python's `True in range(0,4)`
treats as forcing edge 1, the top), the end-edge pin overwrites the
single point — which is also the first point — so the first generated
handle point has `y = 0` and does *not* lie on the forced bottom edge
`y = 4` of a 5×5 image. -/
theorem C8_counterexample :
    pyOut (rand_spline_handles (5, 5) 1 (.int 3) (.bool true)) ⟨123⟩ =
      .ok [((3 : ℚ), (0 : ℚ))] ∧
    onEdge (5, 5) 3 ((3 : ℚ), (0 : ℚ)) = false := by decide

end

/-- Witness for the amended C8 at a 5×5 image, `nPts = 2`, forced start
edge 0. -/
theorem C8_start_edge_pinning_witness :
    ∃ p rest, pyOut (rand_spline_handles (5, 5) 2 (.int 0) (.bool true)) ⟨123⟩ =
      .ok (p :: rest) ∧ onEdge (5, 5) 0 p = true :=
  C8_start_edge_pinning (5, 5) 2 0 (.bool true) ⟨123⟩ (by decide) (by decide) (by decide)
    (by decide) (by decide)

/-! ## C9 -/

theorem npRound_lb (q : ℚ) : ⌊q⌋ ≤ npRound q := by
  unfold npRound
  dsimp only
  split
  · exact le_refl _
  · split
    · omega
    · split <;> omega

theorem npRound_ub (q : ℚ) : npRound q ≤ ⌈q⌉ := by
  unfold npRound
  dsimp only
  split
  · exact Int.floor_le_ceil q
  · rename_i h1
    have hq : (⌊q⌋ : ℚ) < q := by
      push_neg at h1
      linarith
    have hc := Int.lt_ceil.mpr hq
    split
    · omega
    · split
      · exact Int.floor_le_ceil q
      · omega

theorem npRound_nonneg (q : ℚ) (h : 0 ≤ q) : 0 ≤ npRound q :=
  le_trans (Int.floor_nonneg.mpr h) (npRound_lb q)

theorem npRound_le_int (q : ℚ) (n : ℤ) (h : q ≤ (n : ℚ)) : npRound q ≤ n :=
  (npRound_ub q).trans (Int.ceil_le.mpr h)

/-- C9 (amended): only `add_tear` clamps point coordinates into
`[0, dimension-1]` before rasterizing, and for it the claim holds: for
*every* point list (in- or out-of-bounds) on an image with positive
dimensions, every rectified-and-rounded coordinate is a valid in-bounds
raster index, so the mask construction succeeds.  `add_marker`,
`add_fold` and `add_sectioning` index with unclamped spline coordinates
and are not covered (see the counterexample). -/
theorem C9_tear_rectify_inbounds (dim : ℕ × ℕ) (pts : List Pt)
    (hw : 1 ≤ dim.1) (hh : 1 ≤ dim.2) :
    ∃ zs, maskZeros dim.2 dim.1
      ((tear_rectify dim pts).map (fun p => (npRound p.1, npRound p.2))) = .ok zs := by
  have hall : ((tear_rectify dim pts).map (fun p => (npRound p.1, npRound p.2))).all
      (fun p => npIdxOk dim.1 p.1 && npIdxOk dim.2 p.2) = true := by
    rw [List.all_eq_true]
    intro p hp
    unfold tear_rectify at hp
    rw [List.map_map, List.mem_map] at hp
    obtain ⟨q, hq, rfl⟩ := hp
    have hw1 : (1 : ℚ) ≤ (dim.1 : ℚ) := by exact_mod_cast hw
    have hh1 : (1 : ℚ) ≤ (dim.2 : ℚ) := by exact_mod_cast hh
    have hx0 : 0 ≤ npRound (min (max q.1 0) ((dim.1 : ℚ) - 1)) :=
      npRound_nonneg _ (le_min (le_max_right _ _) (by linarith))
    have hx1 : npRound (min (max q.1 0) ((dim.1 : ℚ) - 1)) ≤ (dim.1 : ℤ) - 1 :=
      npRound_le_int _ _ (by push_cast; exact min_le_right _ _)
    have hy0 : 0 ≤ npRound (min (max q.2 0) ((dim.2 : ℚ) - 1)) :=
      npRound_nonneg _ (le_min (le_max_right _ _) (by linarith))
    have hy1 : npRound (min (max q.2 0) ((dim.2 : ℚ) - 1)) ≤ (dim.2 : ℤ) - 1 :=
      npRound_le_int _ _ (by push_cast; exact min_le_right _ _)
    simp only [Function.comp, npIdxOk, Bool.and_eq_true, decide_eq_true_eq]
    constructor
    · constructor <;> omega
    · constructor <;> omega
  exact ⟨_, by unfold maskZeros; rw [if_pos hall]⟩

section

attribute [local semireducible] Rat.mul Rat.inv Rat.add Rat.sub Rat.ofScientific

set_option maxRecDepth 40000 in
/-- C9 counterexample: `add_marker` does *not* clamp: a caller-supplied
spline sample at `x = 10` on a 5×5 image makes the mask construction
index column 10 of a 5-wide raster, raising `IndexError` (img_manip.py
line 205 rounds but never clamps). -/
theorem C9_counterexample :
    errOf (pyOut (add_marker N0 img55 (some 0) 3 (some [((10 : ℚ), (0 : ℚ))]) none 100 (3 / 4)
      none markerRgbDefault) ⟨5⟩) = some .indexError := by decide

/-- Witness for the amended C9 on an out-of-bounds point list. -/
theorem C9_tear_rectify_inbounds_witness :
    (∃ zs, maskZeros 5 5 ((tear_rectify (5, 5) [((1000 : ℚ), (-3 : ℚ))]).map
      (fun p => (npRound p.1, npRound p.2))) = .ok zs) ∧ (1 ≤ 5) :=
  ⟨C9_tear_rectify_inbounds (5, 5) [((1000 : ℚ), (-3 : ℚ))] (by decide) (by decide), by decide⟩

end

/-! ## C10 -/

/-- C10 counterexample: on a 1×1 image, `add_fold` with `nLayers = 2`
and `random_seed = None` raises `ValueError` (the spline generator's
`np.random.randint(dim[0]-1, ...)` has an empty range) before the
recursion is ever reached — so "for every input image ... raises a
TypeError" fails as stated. -/
theorem C10_counterexample :
    errOf (pyOut (add_fold N0 img11 none none none none foldDefaultArgs 2) ⟨7⟩) =
      some .valueError ∧ PyErr.valueError ≠ PyErr.typeError := by decide

/-- C10 (amended): `add_fold` with `nLayers ≥ 2` and `random_seed = None`
never completes: it always raises some exception, and whenever the first
layer's pipeline itself succeeds, the exception is exactly the
`TypeError` from evaluating `random_seed + 1` on `None` at the recursive
call — so a multi-layer fold completes only with an integer seed. -/
theorem C10_fold_multilayer_none_seed (N : Numerics) (img : Img)
    (sampArr : Option (ℕ → ℕ → Pix)) (sampSpl inPts : Option (List Pt)) (a : FoldArgs)
    (nLayers : ℤ) (g : RNG) (hn : 2 ≤ nLayers) :
    pyFails (add_fold N img sampArr sampSpl inPts none a nLayers) g = true ∧
    (pyFails (fold_layer N img sampArr sampSpl inPts none a) g = false →
      pyOut (add_fold N img sampArr sampSpl inPts none a nLayers) g = .error .typeError) := by
  obtain ⟨m, hm⟩ : ∃ m, nLayers.toNat = m + 2 := ⟨nLayers.toNat - 2, by omega⟩
  unfold add_fold
  rw [hm]
  constructor
  · show pyFails (npRandomSeed none >>= fun _ =>
      fold_layer N img sampArr sampSpl inPts none a >>= fun _ =>
        (pyThrow .typeError : PyM Img)) g = true
    apply pyFails_bind
    intro _ g1
    apply pyFails_bind
    intro _ g2
    exact pyFails_throw _ _
  · intro hok
    cases hl : fold_layer N img sampArr sampSpl inPts none a g with
    | error e =>
        unfold pyFails at hok
        rw [hl] at hok
        simp at hok
    | ok p =>
        show Except.map Prod.fst ((npRandomSeed none >>= fun _ =>
          fold_layer N img sampArr sampSpl inPts none a >>= fun _ =>
            (pyThrow .typeError : PyM Img)) g) = .error .typeError
        rw [run_bind, run_seed_none]
        show Except.map Prod.fst ((fold_layer N img sampArr sampSpl inPts none a >>= fun _ =>
          (pyThrow .typeError : PyM Img)) g) = .error .typeError
        rw [run_bind, hl]
        obtain ⟨q, g2⟩ := p
        rfl

section

attribute [local semireducible] Rat.mul Rat.inv Rat.add Rat.sub Rat.ofScientific

set_option maxRecDepth 400000 in
/-- Witness for the amended C10: a concrete configuration whose first
layer succeeds, so the result is exactly the recursion `TypeError`. -/
theorem C10_fold_multilayer_none_seed_witness :
    pyOut (add_fold N0 img55 none (some [((0 : ℚ), (0 : ℚ)), ((4 : ℚ), (4 : ℚ))]) none none
      foldDefaultArgs 2) ⟨9⟩ = .error .typeError ∧ (2 : ℤ) ≤ 2 :=
  ⟨(C10_fold_multilayer_none_seed N0 img55 none (some [((0 : ℚ), (0 : ℚ)), ((4 : ℚ), (4 : ℚ))])
      none foldDefaultArgs 2 ⟨9⟩ (by decide)).2 (by decide),
   by decide⟩

end

section

attribute [local semireducible] Rat.mul Rat.inv Rat.add Rat.sub Rat.ofScientific

/-- Witness for C5: a trivial power collaborator on a white pixel
realizes the decomposition contract exactly (`eps = 0`). -/
theorem C5_stain_roundtrip_witness :
    |((adjust_stain stainWitN imgWhite (1, 1, 1)).1 0 0).1 - (imgWhite.pix 0 0).1| ≤ 0 ∧
    |255 * stainWitN.qpow stainWitN.getBasis.1.1 (stainWitN.outScalars imgWhite 0 0).1
      * stainWitN.qpow stainWitN.getBasis.2.1.1 (stainWitN.outScalars imgWhite 0 0).2.1
      * stainWitN.qpow stainWitN.getBasis.2.2.1 (stainWitN.outScalars imgWhite 0 0).2.2
      - (imgWhite.pix 0 0).1| ≤ 0 :=
  ⟨(C5_stain_roundtrip stainWitN imgWhite 0 0 0 (by decide) (by decide) (by decide)
      (by decide) (by decide) (by decide)).1,
   by decide⟩

end
